import Mathlib

/-!
Verification of the `mock_data_generator` repository against its design
specification.

The embedding models timestamps and timedeltas as rational numbers of
seconds since the epoch (`pd.Timestamp` / `pd.Timedelta` arithmetic is
exact at nanosecond resolution; every quantity the program manipulates is
a rational number of seconds, so `ℚ` is a faithful carrier).  Values drawn
on the canvas (`y` coordinates) are likewise modelled as `ℚ`.  Fallible
library operations (a pandas column assignment whose length does not match
the index) are modelled with `Option`.
-/

namespace MockDataGenerator

/-- A point with x and y coordinates, as in `artist.Point` (a namedtuple).
The x coordinate is a timestamp in seconds, the y coordinate a value. -/
abbrev Point := ℚ × ℚ

/-- `pd.date_range(a, b, freq=p)` with both endpoints inclusive and a
positive frequency: the timestamps `a, a + p, a + 2p, …` not exceeding `b`.
Empty when `b < a`. -/
def dateRange (a b p : ℚ) : List ℚ :=
  if 0 < p ∧ a ≤ b then
    (List.range (⌊(b - a) / p⌋.toNat + 1)).map (fun k : ℕ => a + (k : ℚ) * p)
  else []

/-- `pd.date_range(a, b, freq=p, inclusive="left")`: as `dateRange` but the
right endpoint, when it lies on the range, is dropped. -/
def dateRangeLeft (a b p : ℚ) : List ℚ :=
  (dateRange a b p).filter (fun x => x != b)

/-- The grid of allowed x coordinates built in `PlotArtist.__init__`:
`pd.date_range(start, end - pd.Timedelta("1s"), freq=period)`. -/
def allowedGrid (start «end» period : ℚ) : List ℚ :=
  dateRange start («end» - 1) period

/-- The state of `artist.PlotArtist` that the capture algorithm reads and
writes: the configured time range and period, the wide table built so far
(one named column of values per finished series), the accumulated points of
the in-progress series, and the current grid position `current_x`.
(The rendering fields — figure, axes, colors, labels — are presentation
state with no effect on the captured data and are not modelled.) -/
structure PlotArtist where
  start : ℚ
  «end» : ℚ
  period : ℚ
  df : List (String × List ℚ)
  points : List Point
  current_x : Option ℚ
  deriving DecidableEq

namespace PlotArtist

/-- `self.allowed_x`, computed in `__init__` from start, end and period. -/
def allowed_x (a : PlotArtist) : List ℚ :=
  allowedGrid a.start a.«end» a.period

/-- The conversion performed at the top of `get_target_x_coord`: matplotlib
hands the click position as days since the epoch; the code multiplies by
`60 * 60 * 24` and rebuilds a whole-second timestamp through `time.gmtime`
(which truncates toward minus infinity). -/
def click_to_timestamp (x_sel : ℚ) : ℚ :=
  (⌊x_sel * 60 * 60 * 24⌋ : ℤ)

/-- `PlotArtist.get_target_x_coord`: snap a raw click to a grid timestamp.
For the first point of a series it is `allowed_x[0]` (modelled with `head?`;
the configuration asserts of `main.py` guarantee a non-empty grid).
Otherwise the allowed timestamps strictly greater than `current_x` are
sorted by absolute distance to the converted click (a stable sort, as
`sorted` in Python) and the closest is returned; `none` when no such
timestamp exists. -/
def get_target_x_coord (a : PlotArtist) (x_sel : ℚ) : Option ℚ :=
  match a.current_x with
  | none => a.allowed_x.head?
  | some cx =>
    let x_pd := click_to_timestamp x_sel
    let x_ordered :=
      (a.allowed_x.filter (fun x => decide (cx < x))).mergeSort
        (fun x1 x2 => decide (|x1 - x_pd| ≤ |x2 - x_pd|))
    x_ordered.head?

/-- `PlotArtist.plot_selection`: record a snapped selection.  When the last
recorded point and `current_x` exist and the snapped x lies strictly more
than one period past `current_x`, the skipped grid timestamps (from
`current_x + period` up to but excluding `x_snapped`) receive linearly
interpolated values; time deltas are converted to fractional minutes via
`.total_seconds() / 60` exactly as in the source.  The final point is then
appended and `current_x` updated. -/
def plot_selection (a : PlotArtist) (x_snapped : ℚ) (y : ℚ) : PlotArtist :=
  let interpolated : List Point :=
    match a.points.getLast?, a.current_x with
    | some (prev_x, prev_y), some cx =>
      if x_snapped > cx + a.period then
        let slope := (y - prev_y) / ((x_snapped - prev_x) / 60)
        (dateRangeLeft (cx + a.period) x_snapped a.period).map
          (fun xi => (xi, prev_y - slope * ((prev_x - xi) / 60)))
      else []
    | _, _ => []
  { a with
    points := a.points ++ interpolated ++ [(x_snapped, y)],
    current_x := some x_snapped }

/-- `PlotArtist.add_points`: one iteration of the capture loop.  The click
obtained from `plt.ginput()` is modelled as `none` (no click / end of
input) or `some (x, y)`.  Mirrors the source exactly: an empty click list
returns `False`; a click that snaps to no target returns `True`; otherwise
the selection is recorded and the result is whether `current_x` differs
from the last grid timestamp. -/
def add_points (a : PlotArtist) (click : Option (ℚ × ℚ)) : PlotArtist × Bool :=
  match click with
  | none => (a, false)
  | some (x_sel, y) =>
    match a.get_target_x_coord x_sel with
    | none => (a, true)
    | some target_x =>
      let a' := a.plot_selection target_x y
      (a', decide (a'.current_x ≠ a'.allowed_x.getLast?))

/-- `PlotArtist.verify_points`: the point count must equal the grid size and
every point's timestamp must be a grid member. -/
def verify_points (a : PlotArtist) : Bool :=
  a.points.length == a.allowed_x.length &&
    a.points.all (fun p => a.allowed_x.contains p.1)

/-- The normalization performed by `draw_series` once the capture loop ends:
`sorted(list(set(self.points)), key=lambda point: point.x)` — duplicate
(x, y) pairs collapse to one, then the points are sorted by x (a stable
sort; on the captured data x coordinates are distinct so any sort agrees). -/
def normalize_points (a : PlotArtist) : PlotArtist :=
  { a with points := a.points.dedup.mergeSort (fun p q => decide (p.1 ≤ q.1)) }

/-- `PlotArtist.finish_series`: `self.df[name] = [p.y for p in self.points]`
followed by clearing the accumulator and resetting `current_x`.  pandas
raises `ValueError` when the assigned list's length differs from the length
of the index (the grid), so the assignment is modelled as fallible. -/
def finish_series (a : PlotArtist) (name : String) : Option PlotArtist :=
  if a.points.length = a.allowed_x.length then
    some { a with
           df := a.df ++ [(name, a.points.map Prod.snd)],
           points := [],
           current_x := none }
  else none

/-- The tail of `draw_series` once the capture loop has ended: normalize
the points, report (but do not act on) the validity check, and commit the
series through `finish_series`. -/
def finalize_series (a : PlotArtist) (name : String) : Option PlotArtist :=
  finish_series (normalize_points a) name

end PlotArtist

/-! ## The wide-to-long reshaper (`reshaper.py`) -/

/-- A wide table handed to `reshape`: the time column (name and values) and
one named column of values per series.  Every column has one entry per row
of the table. -/
structure WideDF where
  time_col : String
  time : List ℚ
  cols : List (String × List ℚ)
  deriving DecidableEq

/-- `df.columns` of the wide frame passed to `reshape` (the time column is an
ordinary column there, `df_wide.reset_index()` having been applied). -/
def WideDF.columns (df : WideDF) : List String :=
  df.time_col :: df.cols.map Prod.fst

/-- Look a measurement column up by name (pandas `df[c]`). -/
def WideDF.col (df : WideDF) (c : String) : List ℚ :=
  ((df.cols.find? (fun q => q.1 == c)).map Prod.snd).getD []

/-- One row of a long table: the time key, the group identifier, one
(possibly missing, after an outer join) value per measurement column, and
the values of the constant columns. -/
structure LongRow where
  t : ℚ
  g : String
  vals : List (Option ℚ)
  consts : List String
  deriving DecidableEq

/-- A long table: the ordered measurement column names, the constant column
names, and the rows. -/
structure LongDF where
  meas_names : List String
  const_names : List String
  rows : List LongRow
  deriving DecidableEq

/-- The interactive inputs `reshape` collects for one measurement set: the
destination column name, the wide columns to unpivot, and the mapping from
each such column name to its group identifier. -/
structure GroupSpec where
  value_name : String
  unpivot_columns : List String
  mapping : List (String × String)
  deriving DecidableEq

/-- `pd.melt(df, id_vars=[time_col], value_vars=cols, var_name=…,
value_name=…)`: for each value column in order, one row per table row
holding the time, the original column name and the value (melt stacks the
value columns one after another). -/
def melt (df : WideDF) (value_vars : List String) : List LongRow :=
  value_vars.flatMap (fun c =>
    (df.time.zip (df.col c)).map (fun tv => ⟨tv.1, c, [some tv.2], []⟩))

/-- `melted_set[grouping_col].replace(to_replace=identifier_mapping)`:
rename each group value found in the mapping, leaving others untouched. -/
def replaceGroups (rows : List LongRow) (mapping : List (String × String)) :
    List LongRow :=
  rows.map (fun r =>
    { r with g := ((mapping.find? (fun q => q.1 == r.g)).map Prod.snd).getD r.g })

/-- The melt-and-rename step of `reshape` for one measurement set. -/
def meltReplace (df : WideDF) (sp : GroupSpec) : LongDF :=
  ⟨[sp.value_name], [], replaceGroups (melt df sp.unpivot_columns) sp.mapping⟩

/-- The Boolean ordering on join keys used below: lexicographic on
(time, group identifier). -/
def keyLe (k1 k2 : ℚ × String) : Bool :=
  decide (k1.1 < k2.1 ∨ k1.1 = k2.1 ∧ k1.2 ≤ k2.2)

/-- `left.merge(right, on=[time_col, grouping_col], how="outer")`:
the union of the join keys, sorted lexicographically (pandas sorts the keys
of an outer merge); per key, matching rows combine their measurement values
(a cartesian product when a key is duplicated), and keys present on one
side only are padded with missing values for the other side's columns. -/
def mergeOuter (A B : LongDF) : LongDF :=
  let n := A.meas_names.length
  let m := B.meas_names.length
  let keys := (((A.rows ++ B.rows).map (fun r => (r.t, r.g))).dedup).mergeSort keyLe
  ⟨A.meas_names ++ B.meas_names, [],
   keys.flatMap (fun k =>
     let la := A.rows.filter (fun r => r.t == k.1 && r.g == k.2)
     let lb := B.rows.filter (fun r => r.t == k.1 && r.g == k.2)
     if la.isEmpty then
       lb.map (fun r => ⟨r.t, r.g, List.replicate n none ++ r.vals, []⟩)
     else if lb.isEmpty then
       la.map (fun r => ⟨r.t, r.g, r.vals ++ List.replicate m none, []⟩)
     else
       la.flatMap (fun ra => lb.map (fun rb => ⟨ra.t, ra.g, ra.vals ++ rb.vals, []⟩)))⟩

/-- `final_melted_df.sort_values(by=time_col)`: sort the rows by the time
key (modelled with a stable merge sort; on rows whose time keys are
distinct every sorting algorithm produces this order). -/
def sortByTime (df : LongDF) : LongDF :=
  { df with rows := df.rows.mergeSort (fun r1 r2 => decide (r1.t ≤ r2.t)) }

/-- One step of the final loop of `reshape`:
`final_melted_df[constant_col] = value` broadcasts the scalar to every
row. -/
def addConstant (df : LongDF) (c : String × String) : LongDF :=
  ⟨df.meas_names, df.const_names ++ [c.1],
   df.rows.map (fun r => { r with consts := r.consts ++ [c.2] })⟩

/-- `reshaper.reshape`, with the interactively gathered per-set inputs
modelled as a list of `GroupSpec`s: melt and rename each set in order,
fold the results together with outer merges, sort by the time column and
append the constant columns one at a time.  (With zero sets the source
raises `IndexError` at `melted_dfs[0]`; the empty table stands in for that
unreachable case.) -/
def reshape (df : WideDF) (specs : List GroupSpec)
    (constants : List (String × String)) : LongDF :=
  let melted_dfs := specs.map (meltReplace df)
  match melted_dfs with
  | [] => ⟨[], [], []⟩
  | first :: rest =>
    constants.foldl addConstant (sortByTime (rest.foldl mergeOuter first))

/-- Broadcasting all constant columns at once — the specification words the
final step of the reshape as "append constant columns (broadcast scalars)
last". -/
def addConstantsAll (df : LongDF) (cs : List (String × String)) : LongDF :=
  ⟨df.meas_names, df.const_names ++ cs.map Prod.fst,
   df.rows.map (fun r => { r with consts := r.consts ++ cs.map Prod.snd })⟩

/-- The reshape pipeline exactly as the specification words it (the
refinement target of claim C9): melt and rename each of the N measurement
groups, combine the results by full outer join on (time, group) in group
order (group 1 with group 2, the result with group 3, …), sort the final
table by the time column, then append the constant columns last, broadcast
to every row. -/
def reshape_spec (df : WideDF) (specs : List GroupSpec)
    (constants : List (String × String)) : LongDF :=
  match specs.map (meltReplace df) with
  | [] => ⟨[], [], []⟩
  | first :: rest =>
    addConstantsAll (sortByTime (rest.foldl mergeOuter first)) constants

/-- Splitting a character list on commas, keeping empty segments — the
semantics of Python's `str.split(",")`. -/
def split_on_commas : List Char → List (List Char)
  | [] => [[]]
  | c :: rest =>
    match split_on_commas rest with
    | [] => [[]]
    | seg :: segs => if c = ',' then [] :: seg :: segs else (c :: seg) :: segs

/-- The parsing inside `response_is_column` and after it:
`response.replace(" ", "").split(",")` — every space character is removed,
then the string is split on commas (modelled at character level). -/
def parse_columns (response : String) : List String :=
  (split_on_commas (response.data.filter (fun ch => ch ≠ ' '))).map
    List.asString

/-- `response_is_column`: true exactly when no named column is missing from
the wide table (the source prints the missing names and returns `False`
otherwise). -/
def response_is_column (df : WideDF) (response : String) : Bool :=
  ((parse_columns response).filter (fun c => !(df.columns.contains c))).isEmpty

/-- `util.get_response` with a `condition`: the prompt is repeated until
the user supplies an input satisfying the condition, so given the stream of
successive user inputs it returns the first valid one (`none` when the user
never supplies a valid input and the recursion never returns). -/
def get_response_condition (cond : String → Bool) (responses : List String) :
    Option String :=
  responses.find? cond

/-! ## Helper lemmas -/

/-- The grid, when its construction condition holds, is an arithmetic
progression presented as a map over `List.range`. -/
lemma allowedGrid_eq_map_range (s e p : ℚ) (hp : 0 < p) (h : s ≤ e - 1) :
    allowedGrid s e p
      = (List.range (⌊(e - 1 - s) / p⌋.toNat + 1)).map
          (fun k : ℕ => s + (k : ℚ) * p) := by
  unfold allowedGrid dateRange
  rw [if_pos ⟨hp, h⟩]

/-- An arithmetic progression with positive step is strictly increasing. -/
lemma pairwise_lt_map_range (s p : ℚ) (hp : 0 < p) (n : ℕ) :
    ((List.range n).map (fun k : ℕ => s + (k : ℚ) * p)).Pairwise (· < ·) := by
  rw [List.pairwise_map]
  exact (List.pairwise_lt_range n).imp fun hab => by
    have : ((_ : ℕ) : ℚ) < _ := Nat.cast_lt.mpr hab
    nlinarith

/-- The head of a merge-sorted list is an element of the original list. -/
lemma mem_of_head?_mergeSort {α : Type*} (le : α → α → Bool) (l : List α)
    (x : α) (h : (l.mergeSort le).head? = some x) : x ∈ l := by
  have hperm := List.mergeSort_perm l le
  cases hms : l.mergeSort le with
  | nil => rw [hms] at h; exact absurd h (by simp)
  | cons a t =>
    rw [hms] at h hperm
    obtain rfl : a = x := by simpa using h
    exact hperm.mem_iff.mp (List.mem_cons_self _ _)

/-- The head of the list sorted by absolute distance to `c` (the sort
performed by `get_target_x_coord`) is an element of the original list at
minimal distance to `c`. -/
lemma head?_mergeSort_abs_min (l : List ℚ) (c tx : ℚ)
    (h : (l.mergeSort (fun x1 x2 => decide (|x1 - c| ≤ |x2 - c|))).head?
      = some tx) :
    tx ∈ l ∧ ∀ u ∈ l, |tx - c| ≤ |u - c| := by
  have htrans : ∀ a b d : ℚ, (fun x1 x2 => decide (|x1 - c| ≤ |x2 - c|)) a b = true →
      (fun x1 x2 => decide (|x1 - c| ≤ |x2 - c|)) b d = true →
      (fun x1 x2 => decide (|x1 - c| ≤ |x2 - c|)) a d = true := by
    intro a b d hab hbd
    simp only [decide_eq_true_eq] at hab hbd ⊢
    exact le_trans hab hbd
  have htotal : ∀ a b : ℚ, ((fun x1 x2 => decide (|x1 - c| ≤ |x2 - c|)) a b ||
      (fun x1 x2 => decide (|x1 - c| ≤ |x2 - c|)) b a) = true := by
    intro a b
    simpa using le_total |a - c| |b - c|
  have hperm := List.mergeSort_perm l (fun x1 x2 => decide (|x1 - c| ≤ |x2 - c|))
  have hsorted := List.sorted_mergeSort htrans htotal l
  cases hms : l.mergeSort (fun x1 x2 => decide (|x1 - c| ≤ |x2 - c|)) with
  | nil => rw [hms] at h; exact absurd h (by simp)
  | cons b t =>
    rw [hms] at h hperm hsorted
    obtain rfl : b = tx := by simpa using h
    obtain ⟨hhead, -⟩ := List.pairwise_cons.mp hsorted
    refine ⟨hperm.subset (List.mem_cons_self _ _), ?_⟩
    intro u hu
    rcases List.mem_cons.mp (hperm.symm.subset hu) with rfl | hut
    · exact le_refl _
    · simpa using hhead u hut

/-- The skipped-grid-point range of `plot_selection`, for a target exactly
`m` periods past `x`: the `m - 1` grid points after `x` and before the
target. -/
lemma dateRangeLeft_arith (x p : ℚ) (hp : 0 < p) (m : ℕ) :
    dateRangeLeft (x + p) (x + (m : ℚ) * p) p
      = (List.range (m - 1)).map (fun k : ℕ => x + ((k : ℚ) + 1) * p) := by
  unfold dateRangeLeft dateRange
  cases m with
  | zero =>
    rw [if_neg]
    · simp
    · rintro ⟨-, habs⟩
      simp only [Nat.cast_zero, zero_mul, add_zero] at habs
      linarith
  | succ m' =>
    have hab : x + p ≤ x + ((m' + 1 : ℕ) : ℚ) * p := by
      push_cast
      nlinarith [Nat.cast_nonneg (α := ℚ) m']
    rw [if_pos ⟨hp, hab⟩]
    have hfloor : ⌊(x + ((m' + 1 : ℕ) : ℚ) * p - (x + p)) / p⌋ = (m' : ℤ) := by
      have : (x + ((m' + 1 : ℕ) : ℚ) * p - (x + p)) / p = (m' : ℚ) := by
        field_simp
        ring
      rw [this]
      exact_mod_cast Int.floor_intCast (α := ℚ) m'
    rw [hfloor]
    have htoNat : ((m' : ℤ)).toNat + 1 = m' + 1 := by omega
    rw [htoNat, List.range_succ, List.map_append, List.filter_append]
    have hlast :
        List.filter (fun q => q != x + ((m' + 1 : ℕ) : ℚ) * p)
          (List.map (fun k : ℕ => x + p + (k : ℚ) * p) [m']) = [] := by
      simp only [List.map_cons, List.map_nil, List.filter_cons, List.filter_nil]
      rw [if_neg]
      simp only [bne_iff_ne, ne_eq, not_not]
      push_cast
      ring
    rw [hlast, List.append_nil]
    have hkeep :
        List.filter (fun q => q != x + ((m' + 1 : ℕ) : ℚ) * p)
          (List.map (fun k : ℕ => x + p + (k : ℚ) * p) (List.range m')) =
          List.map (fun k : ℕ => x + p + (k : ℚ) * p) (List.range m') := by
      rw [List.filter_eq_self]
      intro q hq
      obtain ⟨k, hk, rfl⟩ := List.mem_map.mp hq
      have hklt : k < m' := List.mem_range.mp hk
      simp only [bne_iff_ne, ne_eq]
      intro habs
      push_cast at habs
      have hkq : (k : ℚ) < (m' : ℚ) := by exact_mod_cast hklt
      nlinarith [habs, hkq, hp]
    rw [hkeep]
    simp only [Nat.add_sub_cancel]
    apply List.map_congr_left
    intro k _
    ring

/-! ## Claim theorems -/

/-- C6: when no point has yet been placed for the current series
(`current_x` unset), `get_target_x_coord` returns the first grid timestamp,
regardless of the raw click's x-position. -/
theorem c6_snap_first_point (a : PlotArtist) (x_sel : ℚ)
    (h : a.current_x = none) :
    a.get_target_x_coord x_sel = a.allowed_x.head? ∧
    ∀ x_sel' : ℚ, a.get_target_x_coord x_sel' = a.get_target_x_coord x_sel := by
  unfold PlotArtist.get_target_x_coord
  rw [h]
  exact ⟨rfl, fun _ => rfl⟩

/-- Witness for C6 at a concrete fresh artist: the snap of an arbitrary
click is the head of the grid. -/
theorem c6_snap_first_point_witness :
    ({ start := 0, «end» := 1500, period := 300, df := [], points := [],
       current_x := none } : PlotArtist).get_target_x_coord 37
      = ({ start := 0, «end» := 1500, period := 300, df := [], points := [],
           current_x := none } : PlotArtist).allowed_x.head? :=
  (c6_snap_first_point _ 37 rfl).1

/-- C3 (code bug): with the series already at the last grid timestamp,
`get_target_x_coord` returns no target, and `add_points` then returns
`True` (keep looping) — the specification and the function's own docstring
("False if all points are drawn") require `False`. -/
theorem c3_add_points_keeps_looping_without_target :
    (({ start := 0, «end» := 600, period := 300, df := [],
        points := [(0, 1), (300, 2)], current_x := some 300 } :
          PlotArtist).get_target_x_coord 5 = none) ∧
    ({ start := 0, «end» := 600, period := 300, df := [],
       points := [(0, 1), (300, 2)], current_x := some 300 } :
         PlotArtist).add_points (some (5, 1))
      = ({ start := 0, «end» := 600, period := 300, df := [],
           points := [(0, 1), (300, 2)], current_x := some 300 }, true) := by
  have h1 : PlotArtist.get_target_x_coord { start := 0, «end» := 600, period := 300, df := [], points := [(0, 1), (300, 2)], current_x := some 300 } 5 = none := by
    simp only [PlotArtist.get_target_x_coord, PlotArtist.allowed_x,
      PlotArtist.click_to_timestamp, allowedGrid, dateRange]
    norm_num [Int.floor_eq_iff, List.range_succ]
  refine ⟨h1, ?_⟩
  simp [PlotArtist.add_points, h1]

/-- C2 counterexample: with `start = 0`, `end = 5/2` seconds and
`period = 2` seconds (a legal configuration: `0 < period < end - start`),
the constructed grid has 1 timestamp while `⌈(end - start)/period⌉ = 2` —
the one-second inset of the range end (`end - pd.Timedelta("1s")`) shaves a
grid point whenever the span's remainder modulo the period is a positive
sub-second amount. -/
theorem c2_grid_cardinality_counterexample :
    (0 : ℚ) < 2 ∧ (2 : ℚ) < (5 / 2 : ℚ) - 0 ∧
    (allowedGrid 0 (5 / 2) 2).length = 1 ∧
    (⌈(((5 / 2 : ℚ) - 0) / 2)⌉ : ℤ) = 2 := by
  refine ⟨by norm_num, by norm_num, ?_, ?_⟩
  · simp only [allowedGrid, dateRange]
    norm_num [Int.floor_eq_iff]
  · norm_num [Int.ceil_eq_iff]

/-- C2 (amended): for every configuration with `start < end` and
`0 < period < end - start`: the grid timestamps are always pairwise
distinct and strictly increasing; the grid has exactly
`⌈(end-start)/period⌉` timestamps whenever the span is an exact multiple of
the period with `period ≥ 1s`, or leaves a remainder of at least one second
modulo the period (in particular for all whole-second configurations); and
in every other case the one-second inset of the range end leaves the grid
with strictly fewer than `⌈(end-start)/period⌉` timestamps. -/
theorem c2_grid_cardinality_amended (s e p : ℚ) (hp : 0 < p)
    (hspan : p < e - s) :
    (allowedGrid s e p).Pairwise (· < ·) ∧
    (allowedGrid s e p).Nodup ∧
    ((((e - s) - p * ⌊(e - s) / p⌋ = 0 ∧ 1 ≤ p) ∨
        1 ≤ (e - s) - p * ⌊(e - s) / p⌋) →
      (allowedGrid s e p).length = (⌈(e - s) / p⌉).toNat) ∧
    (¬ (((e - s) - p * ⌊(e - s) / p⌋ = 0 ∧ 1 ≤ p) ∨
        1 ≤ (e - s) - p * ⌊(e - s) / p⌋) →
      (allowedGrid s e p).length < (⌈(e - s) / p⌉).toNat) := by
  have hq1 : (1 : ℤ) ≤ ⌊(e - s) / p⌋ := by
    apply Int.le_floor.mpr
    rw [le_div_iff₀ hp]
    push_cast
    linarith
  have hql : ((⌊(e - s) / p⌋ : ℤ) : ℚ) ≤ (e - s) / p := Int.floor_le _
  have hqu : (e - s) / p < (⌊(e - s) / p⌋ : ℤ) + 1 := Int.lt_floor_add_one _
  have hpq : p * ((⌊(e - s) / p⌋ : ℤ) : ℚ) ≤ e - s := by
    rw [mul_comm]
    exact (le_div_iff₀ hp).mp hql
  have hpq2 : e - s < p * (((⌊(e - s) / p⌋ : ℤ) : ℚ) + 1) := by
    have := (div_lt_iff₀ hp).mp hqu
    linarith [this]
  have hcast : (1 : ℚ) ≤ ((⌊(e - s) / p⌋ : ℤ) : ℚ) := by exact_mod_cast hq1
  have hpw : (allowedGrid s e p).Pairwise (· < ·) := by
    unfold allowedGrid dateRange
    split
    · exact pairwise_lt_map_range s p hp _
    · exact List.Pairwise.nil
  refine ⟨hpw, hpw.imp ne_of_lt, ?_, ?_⟩
  · intro hrem
    have hD1 : (1 : ℚ) ≤ e - s := by
      rcases hrem with ⟨h0, hp1⟩ | h1
      · nlinarith [sub_eq_zero.mp (by linarith [h0] :
          (e - s) - p * ((⌊(e - s) / p⌋ : ℤ) : ℚ) = 0)]
      · nlinarith
    have hcond : s ≤ e - 1 := by linarith
    rw [allowedGrid_eq_map_range s e p hp hcond]
    rw [List.length_map, List.length_range]
    have heq : e - 1 - s = (e - s) - 1 := by ring
    rw [heq]
    rcases hrem with ⟨h0, hp1⟩ | h1
    · -- the span is an exact multiple of the period, and the period is ≥ 1s
      have hDq : e - s = p * ((⌊(e - s) / p⌋ : ℤ) : ℚ) := by
        linarith [sub_eq_zero.mp h0]
      have hC : ⌈(e - s) / p⌉ = ⌊(e - s) / p⌋ := by
        rw [hDq, mul_comm, mul_div_assoc, div_self (ne_of_gt hp), mul_one]
        exact Int.ceil_intCast _
      have hF : ⌊((e - s) - 1) / p⌋ = ⌊(e - s) / p⌋ - 1 := by
        apply Int.floor_eq_iff.mpr
        constructor
        · rw [le_div_iff₀ hp]
          push_cast
          nlinarith
        · rw [div_lt_iff₀ hp]
          push_cast
          nlinarith
      rw [hF, hC]
      omega
    · -- the span's remainder modulo the period is at least one second
      have hC : ⌈(e - s) / p⌉ = ⌊(e - s) / p⌋ + 1 := by
        apply Int.ceil_eq_iff.mpr
        constructor
        · push_cast
          rw [lt_div_iff₀ hp]
          nlinarith
        · push_cast
          rw [div_le_iff₀ hp]
          nlinarith
      have hF : ⌊((e - s) - 1) / p⌋ = ⌊(e - s) / p⌋ := by
        apply Int.floor_eq_iff.mpr
        constructor
        · rw [le_div_iff₀ hp]
          nlinarith
        · rw [div_lt_iff₀ hp]
          nlinarith
      rw [hF, hC]
      omega
  · intro hrem
    push_neg at hrem
    obtain ⟨hrem1, hrem2⟩ := hrem
    by_cases hD1 : 1 ≤ e - s
    · have hcond : s ≤ e - 1 := by linarith
      rw [allowedGrid_eq_map_range s e p hp hcond]
      rw [List.length_map, List.length_range]
      have heq : e - 1 - s = (e - s) - 1 := by ring
      rw [heq]
      have hr0 : 0 ≤ (e - s) - p * ⌊(e - s) / p⌋ := by linarith
      have hfge : (0 : ℤ) ≤ ⌊((e - s) - 1) / p⌋ := by
        rw [Int.floor_nonneg]
        exact div_nonneg (by linarith) hp.le
      rcases eq_or_lt_of_le hr0 with hreq | hrpos
      · -- exact multiple of a sub-second period
        have hp1 : p < 1 := hrem1 hreq.symm
        have hDq : e - s = p * ((⌊(e - s) / p⌋ : ℤ) : ℚ) := by linarith
        have hC : ⌈(e - s) / p⌉ = ⌊(e - s) / p⌋ := by
          rw [hDq, mul_comm, mul_div_assoc, div_self (ne_of_gt hp), mul_one]
          exact Int.ceil_intCast _
        have hq2 : (2 : ℤ) ≤ ⌊(e - s) / p⌋ := by
          by_contra hco
          push_neg at hco
          have h1 : ⌊(e - s) / p⌋ = 1 := by omega
          rw [h1] at hDq
          push_cast at hDq
          linarith
        have hF : ⌊((e - s) - 1) / p⌋ < ⌊(e - s) / p⌋ - 1 := by
          rw [Int.floor_lt, div_lt_iff₀ hp]
          push_cast
          nlinarith
        rw [hC]
        omega
      · -- positive sub-second remainder
        have hC : ⌈(e - s) / p⌉ = ⌊(e - s) / p⌋ + 1 := by
          apply Int.ceil_eq_iff.mpr
          constructor
          · push_cast
            rw [lt_div_iff₀ hp]
            nlinarith
          · push_cast
            rw [div_le_iff₀ hp]
            nlinarith
        have hF : ⌊((e - s) - 1) / p⌋ < ⌊(e - s) / p⌋ := by
          rw [Int.floor_lt, div_lt_iff₀ hp]
          nlinarith
        rw [hC]
        omega
    · -- span shorter than one second: the grid is empty, the ceiling is not
      push_neg at hD1
      have hlen : (allowedGrid s e p).length = 0 := by
        unfold allowedGrid dateRange
        rw [if_neg]
        · rfl
        · rintro ⟨-, hco⟩
          linarith
      rw [hlen]
      have hcpos : 0 < ⌈(e - s) / p⌉ :=
        Int.ceil_pos.mpr (div_pos (by linarith) hp)
      omega

/-- Witness for C2's amended theorem: the exact count at the default-style
whole-second configuration start = 0, end = 1500 s, period = 300 s (five
grid points), and the strict shortfall at the sub-second-remainder
configuration start = 0, end = 2.5 s, period = 2 s. -/
theorem c2_grid_cardinality_amended_witness :
    (allowedGrid 0 1500 300).Pairwise (· < ·) ∧
    (allowedGrid 0 1500 300).Nodup ∧
    (allowedGrid 0 1500 300).length = (⌈((1500 : ℚ) - 0) / 300⌉).toNat ∧
    (allowedGrid 0 (5 / 2) 2).length < (⌈(((5 / 2 : ℚ)) - 0) / 2⌉).toNat :=
  ⟨(c2_grid_cardinality_amended 0 1500 300 (by norm_num) (by norm_num)).1,
   (c2_grid_cardinality_amended 0 1500 300 (by norm_num) (by norm_num)).2.1,
   (c2_grid_cardinality_amended 0 1500 300 (by norm_num) (by norm_num)).2.2.1
     (Or.inl ⟨by norm_num [Int.floor_eq_iff], by norm_num⟩),
   (c2_grid_cardinality_amended 0 (5 / 2) 2 (by norm_num) (by norm_num)).2.2.2
     (by norm_num [Int.floor_eq_iff])⟩

/-- C4 counterexample: a finished series of a single point on a two-point
grid fails validation, and the commit then aborts (pandas refuses a column
assignment whose length differs from the index length) — the series is not
committed, contradicting "finishing a series never aborts". -/
theorem c4_commit_counterexample :
    PlotArtist.verify_points
      (PlotArtist.normalize_points
        { start := 0, «end» := 600, period := 300, df := [],
          points := [(0, 5)], current_x := some 0 }) = false ∧
    PlotArtist.finalize_series
      { start := 0, «end» := 600, period := 300, df := [],
        points := [(0, 5)], current_x := some 0 } "s2" = none := by
  constructor
  · simp only [PlotArtist.verify_points, PlotArtist.normalize_points,
      PlotArtist.allowed_x, allowedGrid, dateRange]
    norm_num [Int.floor_eq_iff, List.range_succ, List.mergeSort, List.dedup]
  · simp only [PlotArtist.finalize_series, PlotArtist.finish_series,
      PlotArtist.normalize_points, PlotArtist.allowed_x, allowedGrid,
      dateRange]
    norm_num [Int.floor_eq_iff, List.range_succ, List.mergeSort, List.dedup]

/-- C4 (amended): after dedup and sort, when the (normalized) point count
matches the grid cardinality, a validation failure (an off-grid timestamp)
is reported only as a warning and the series is still committed as a new
column of the wide table; when the count differs, the column assignment
itself fails and the commit aborts (see the counterexample). -/
theorem c4_commit_amended (a : PlotArtist) (name : String)
    (hcount : (a.normalize_points).points.length
      = (a.normalize_points).allowed_x.length)
    (_hinvalid : (a.normalize_points).verify_points = false) :
    a.finalize_series name
      = some { a.normalize_points with
               df := a.df ++ [(name, (a.normalize_points).points.map Prod.snd)],
               points := [], current_x := none } := by
  unfold PlotArtist.finalize_series PlotArtist.finish_series
  rw [if_pos hcount]
  rfl

/-- Witness for C4's amended theorem: two points, one of them off-grid, on
a two-point grid; validation fails but the series is committed. -/
theorem c4_commit_amended_witness :
    PlotArtist.finalize_series
      { start := 0, «end» := 600, period := 300, df := [],
        points := [(0, 1), (7, 2)], current_x := some 7 } "s2"
      = some { PlotArtist.normalize_points
                 { start := 0, «end» := 600, period := 300, df := [],
                   points := [(0, 1), (7, 2)], current_x := some 7 } with
               df := [] ++ [("s2",
                 (PlotArtist.normalize_points
                   { start := 0, «end» := 600, period := 300, df := [],
                     points := [(0, 1), (7, 2)],
                     current_x := some 7 }).points.map Prod.snd)],
               points := [], current_x := none } :=
  c4_commit_amended
    { start := 0, «end» := 600, period := 300, df := [],
      points := [(0, 1), (7, 2)], current_x := some 7 } "s2"
    (by
      simp only [PlotArtist.normalize_points, PlotArtist.allowed_x,
        allowedGrid, dateRange]
      norm_num [Int.floor_eq_iff, List.range_succ, List.mergeSort, List.dedup])
    (by
      simp only [PlotArtist.verify_points, PlotArtist.normalize_points,
        PlotArtist.allowed_x, allowedGrid, dateRange]
      norm_num [Int.floor_eq_iff, List.range_succ, List.mergeSort, List.dedup])

/-- C1: during an in-progress series with last recorded point
`(prev_x, prev_y)`, a selection snapped to `m ≥ 2` grid periods past
`current_x` appends one interpolated point per intermediate grid timestamp
(inclusive of the one right after `current_x`, exclusive of the target)
with value `prev_y - slope * (prev_x - xi)` for
`slope = (y - prev_y) / (target - prev_x)` in fractional minutes; in
particular, from `prev = (t0, 5)` a click snapping to `t0 + 3·period` with
`y = 11` records the intermediate values 7 and 9. -/
theorem c1_plot_selection_interpolates :
    (∀ (a : PlotArtist) (prev_x prev_y cx y : ℚ) (m : ℕ),
      a.points.getLast? = some (prev_x, prev_y) →
      a.current_x = some cx →
      0 < a.period → 2 ≤ m →
      (a.plot_selection (cx + (m : ℚ) * a.period) y).points
        = a.points
          ++ (List.range (m - 1)).map (fun k : ℕ =>
               (cx + ((k : ℚ) + 1) * a.period,
                prev_y - (y - prev_y) / ((cx + (m : ℚ) * a.period - prev_x) / 60)
                  * ((prev_x - (cx + ((k : ℚ) + 1) * a.period)) / 60)))
          ++ [(cx + (m : ℚ) * a.period, y)]) ∧
    (∀ (a : PlotArtist) (t0 : ℚ),
      a.points.getLast? = some (t0, 5) →
      a.current_x = some t0 →
      0 < a.period →
      ((a.plot_selection (t0 + 3 * a.period) 11).points.map Prod.snd)
        = a.points.map Prod.snd ++ [7, 9, 11]) := by
  have main : ∀ (a : PlotArtist) (prev_x prev_y cx y : ℚ) (m : ℕ),
      a.points.getLast? = some (prev_x, prev_y) →
      a.current_x = some cx →
      0 < a.period → 2 ≤ m →
      (a.plot_selection (cx + (m : ℚ) * a.period) y).points
        = a.points
          ++ (List.range (m - 1)).map (fun k : ℕ =>
               (cx + ((k : ℚ) + 1) * a.period,
                prev_y - (y - prev_y) / ((cx + (m : ℚ) * a.period - prev_x) / 60)
                  * ((prev_x - (cx + ((k : ℚ) + 1) * a.period)) / 60)))
          ++ [(cx + (m : ℚ) * a.period, y)] := by
    intro a px py cx y m hlast hcx hp hm
    have hm2 : (2 : ℚ) ≤ (m : ℚ) := by exact_mod_cast hm
    have hgt : cx + (m : ℚ) * a.period > cx + a.period := by nlinarith
    simp only [PlotArtist.plot_selection, hlast, hcx, if_pos hgt,
      dateRangeLeft_arith cx a.period hp m, List.map_map]
    rfl
  refine ⟨main, ?_⟩
  intro a t0 hlast hcx hp
  have h := main a t0 5 t0 11 3 hlast hcx hp (by norm_num)
  have h3 : ((3 : ℕ) : ℚ) = 3 := by norm_num
  rw [h3] at h
  rw [h, List.map_append, List.map_append]
  have hrange : List.range (3 - 1) = [0, 1] := by decide
  rw [hrange]
  have hp' : a.period ≠ 0 := ne_of_gt hp
  simp only [List.map_cons, List.map_nil, List.map_map, Function.comp]
  rw [List.append_assoc]
  congr 1
  simp only [List.cons_append, List.nil_append, List.cons.injEq, and_true]
  push_cast
  constructor
  · field_simp
    ring
  · field_simp
    ring

/-- Witness for C1 at a concrete artist: one recorded point `(0, 5)`, a
five-minute period, a click snapped three periods ahead with `y = 11`. -/
theorem c1_plot_selection_interpolates_witness :
    (PlotArtist.plot_selection
        { start := 0, «end» := 10000, period := 300, df := [],
          points := [(0, 5)], current_x := some 0 }
        ((0 : ℚ) + ((3 : ℕ) : ℚ) * 300) 11).points
      = [((0 : ℚ), (5 : ℚ))]
        ++ (List.range (3 - 1)).map (fun k : ℕ =>
             ((0 : ℚ) + ((k : ℚ) + 1) * 300,
              5 - (11 - 5) / (((0 : ℚ) + ((3 : ℕ) : ℚ) * 300 - 0) / 60)
                * ((0 - ((0 : ℚ) + ((k : ℚ) + 1) * 300)) / 60)))
        ++ [((0 : ℚ) + ((3 : ℕ) : ℚ) * 300, (11 : ℚ))] ∧
    (PlotArtist.plot_selection
        { start := 0, «end» := 10000, period := 300, df := [],
          points := [(0, 5)], current_x := some 0 }
        ((0 : ℚ) + 3 * 300) 11).points.map Prod.snd
      = [((0 : ℚ), (5 : ℚ))].map Prod.snd ++ [7, 9, 11] :=
  ⟨c1_plot_selection_interpolates.1
      { start := 0, «end» := 10000, period := 300, df := [],
        points := [(0, 5)], current_x := some 0 }
      0 5 0 11 3 rfl rfl (show (0 : ℚ) < 300 by norm_num) (by norm_num),
   c1_plot_selection_interpolates.2
      { start := 0, «end» := 10000, period := 300, df := [],
        points := [(0, 5)], current_x := some 0 }
      0 rfl rfl (show (0 : ℚ) < 300 by norm_num)⟩

/-- C5: for every click after the first point of a series
(`current_x = some cx`), a successful snap returns a grid timestamp
strictly greater than `current_x`, nearest (among those) by absolute time
distance to the converted click; and the snap returns `none` exactly when
no grid timestamp greater than `current_x` exists. -/
theorem c5_snap_future_nearest (a : PlotArtist) (cx x_sel : ℚ)
    (hcx : a.current_x = some cx) :
    (∀ tx, a.get_target_x_coord x_sel = some tx →
       tx ∈ a.allowed_x ∧ cx < tx ∧
       ∀ u ∈ a.allowed_x, cx < u →
         |tx - PlotArtist.click_to_timestamp x_sel|
           ≤ |u - PlotArtist.click_to_timestamp x_sel|) ∧
    (a.get_target_x_coord x_sel = none ↔ ∀ u ∈ a.allowed_x, u ≤ cx) := by
  simp only [PlotArtist.get_target_x_coord, hcx]
  constructor
  · intro tx htx
    obtain ⟨hmem, hmin⟩ := head?_mergeSort_abs_min _ _ tx htx
    have hmf := List.mem_filter.mp hmem
    refine ⟨hmf.1, by simpa using hmf.2, ?_⟩
    intro u hu hcu
    exact hmin u (List.mem_filter.mpr ⟨hu, by simpa using hcu⟩)
  · rw [List.head?_eq_none_iff]
    constructor
    · intro hnil u hu
      have hperm := List.mergeSort_perm
        (a.allowed_x.filter (fun x => decide (cx < x)))
        (fun x1 x2 => decide (|x1 - PlotArtist.click_to_timestamp x_sel|
          ≤ |x2 - PlotArtist.click_to_timestamp x_sel|))
      rw [hnil] at hperm
      have hfil := hperm.symm.eq_nil
      have := List.filter_eq_nil_iff.mp hfil u hu
      simpa using this
    · intro hall
      have hfil : a.allowed_x.filter (fun x => decide (cx < x)) = [] :=
        List.filter_eq_nil_iff.mpr (fun u hu => by
          simpa using not_lt.mpr (hall u hu))
      rw [hfil]
      simp

/-- Witness for C5 at a concrete artist (grid 0, 300, …, 1200 s,
`current_x = 0`) and a click at x-position 0: the snapped target 300 is an
eligible grid point at minimal distance to the converted click. -/
theorem c5_snap_future_nearest_witness :
    (300 : ℚ) ∈ (PlotArtist.allowed_x
      { start := 0, «end» := 1500, period := 300, df := [],
        points := [(0, 2)], current_x := some 0 }) ∧
    (0 : ℚ) < 300 ∧
    ∀ u ∈ (PlotArtist.allowed_x
      { start := 0, «end» := 1500, period := 300, df := [],
        points := [(0, 2)], current_x := some 0 }), (0 : ℚ) < u →
      |(300 : ℚ) - PlotArtist.click_to_timestamp 0|
        ≤ |u - PlotArtist.click_to_timestamp 0| :=
  (c5_snap_future_nearest
      { start := 0, «end» := 1500, period := 300, df := [],
        points := [(0, 2)], current_x := some 0 } 0 0 rfl).1 300
    (by
      have hfl : (⌊((1500 : ℚ) - 1 - 0) / 300⌋) = 4 := by
        norm_num [Int.floor_eq_iff]
      have ht : Int.toNat 4 = 4 := rfl
      have hgrid : PlotArtist.allowed_x
          { start := 0, «end» := 1500, period := 300, df := [],
            points := [(0, 2)], current_x := some 0 }
          = [0, 300, 600, 900, 1200] := by
        simp only [PlotArtist.allowed_x, allowedGrid, dateRange, hfl, ht]
        norm_num [List.range_succ]
      simp only [PlotArtist.get_target_x_coord, PlotArtist.click_to_timestamp,
        hgrid]
      norm_num [List.mergeSort, abs_of_nonneg])

/-- C8: a grouping-spec answer naming a column absent from the wide table
fails `response_is_column`, and the retry loop of `get_response` only ever
hands `reshape` a column list whose every name is present in the wide
table — melt never runs with a missing column. -/
theorem c8_missing_column_validation :
    (∀ (df : WideDF) (r : String),
      (∃ c ∈ parse_columns r, c ∉ df.columns) →
      response_is_column df r = false) ∧
    (∀ (df : WideDF) (responses : List String) (s : String),
      get_response_condition (response_is_column df) responses = some s →
      ∀ c ∈ parse_columns s, c ∈ df.columns) := by
  constructor
  · rintro df r ⟨c, hc, hnc⟩
    have hmem : c ∈ (parse_columns r).filter
        (fun c => !(df.columns.contains c)) := by
      refine List.mem_filter.mpr ⟨hc, ?_⟩
      simpa [List.elem_iff] using hnc
    unfold response_is_column
    cases hemp : ((parse_columns r).filter
        (fun c => !(df.columns.contains c))).isEmpty
    · rfl
    · rw [List.isEmpty_iff] at hemp
      rw [hemp] at hmem
      exact absurd hmem (List.not_mem_nil c)
  · intro df responses s hfind c hc
    have hvalid := List.find?_some hfind
    unfold response_is_column at hvalid
    rw [List.isEmpty_iff] at hvalid
    have := List.filter_eq_nil_iff.mp hvalid c hc
    simpa [List.elem_iff] using this

/-- Witness for C8: a two-column wide table; the answer "v1, zz" names a
missing column and is rejected, and the retry stream
["v1, zz", "v1, v2"] yields the valid answer, whose parsed columns are all
present. -/
theorem c8_missing_column_validation_witness :
    response_is_column ⟨"ts", [0], [("v1", [1]), ("v2", [2])]⟩ "v1, zz"
      = false ∧
    ∀ c ∈ parse_columns "v1, v2",
      c ∈ WideDF.columns ⟨"ts", [0], [("v1", [1]), ("v2", [2])]⟩ :=
  ⟨c8_missing_column_validation.1 ⟨"ts", [0], [("v1", [1]), ("v2", [2])]⟩
      "v1, zz" (by decide),
   c8_missing_column_validation.2 ⟨"ts", [0], [("v1", [1]), ("v2", [2])]⟩
      ["v1, zz", "v1, v2"] "v1, v2" (by decide)⟩

/-- Appending constant columns one at a time (the loop in `reshape`) agrees
with broadcasting them all at once. -/
lemma foldl_addConstant_eq (df : LongDF) (cs : List (String × String)) :
    cs.foldl addConstant df = addConstantsAll df cs := by
  induction cs generalizing df with
  | nil => simp [addConstantsAll]
  | cons c cs ih =>
    rw [List.foldl_cons, ih]
    simp [addConstant, addConstantsAll, List.map_map, Function.comp]

/-- Every row produced by an outer merge carries no constant-column
values. -/
lemma mergeOuter_consts_nil (A B : LongDF) :
    ∀ r ∈ (mergeOuter A B).rows, r.consts = [] := by
  intro r hr
  simp only [mergeOuter, List.mem_flatMap] at hr
  obtain ⟨k, -, hk⟩ := hr
  split_ifs at hk
  · obtain ⟨q, -, rfl⟩ := List.mem_map.mp hk
    rfl
  · obtain ⟨q, -, rfl⟩ := List.mem_map.mp hk
    rfl
  · obtain ⟨ra, -, hk2⟩ := List.mem_flatMap.mp hk
    obtain ⟨rb, -, rfl⟩ := List.mem_map.mp hk2
    rfl

/-- Every row of a melted-and-renamed table carries no constant-column
values. -/
lemma meltReplace_consts_nil (df : WideDF) (sp : GroupSpec) :
    ∀ r ∈ (meltReplace df sp).rows, r.consts = [] := by
  intro r hr
  simp only [meltReplace, replaceGroups, List.mem_map] at hr
  obtain ⟨q, hq, rfl⟩ := hr
  simp only [melt, List.mem_flatMap, List.mem_map] at hq
  obtain ⟨c, -, tv, -, rfl⟩ := hq
  rfl

/-- Folding outer merges over melted tables preserves the absence of
constant-column values. -/
lemma foldl_mergeOuter_consts_nil (first : LongDF) (rest : List LongDF)
    (h : ∀ r ∈ first.rows, r.consts = []) :
    ∀ r ∈ (rest.foldl mergeOuter first).rows, r.consts = [] := by
  induction rest generalizing first with
  | nil => exact h
  | cons B bs ih => exact ih (mergeOuter first B) (mergeOuter_consts_nil first B)

/-- C9: for every reshape of N ≥ 1 measurement groups, the result is the
melted tables combined by full outer join on (time, group) in group order,
then sorted by the time column, with the constant columns appended last —
and every row of the result carries every constant's value (the scalars are
broadcast to all rows). -/
theorem c9_reshape_structure (df : WideDF) (sp : GroupSpec)
    (rest : List GroupSpec) (constants : List (String × String)) :
    reshape df (sp :: rest) constants
      = reshape_spec df (sp :: rest) constants ∧
    ∀ r ∈ (reshape df (sp :: rest) constants).rows,
      r.consts = constants.map Prod.snd := by
  have heq : reshape df (sp :: rest) constants
      = reshape_spec df (sp :: rest) constants := by
    simp only [reshape, reshape_spec, List.map_cons]
    rw [foldl_addConstant_eq]
  refine ⟨heq, ?_⟩
  rw [heq]
  have h0 : ∀ q ∈ (sortByTime
      ((rest.map (meltReplace df)).foldl mergeOuter (meltReplace df sp))).rows,
      q.consts = [] := by
    intro q hq
    have hq' : q ∈ ((rest.map (meltReplace df)).foldl mergeOuter
        (meltReplace df sp)).rows := (List.mergeSort_perm _ _).subset hq
    exact foldl_mergeOuter_consts_nil _ _ (meltReplace_consts_nil df sp) q hq'
  intro r hr
  simp only [reshape_spec, List.map_cons, addConstantsAll, List.mem_map] at hr
  obtain ⟨q, hq, rfl⟩ := hr
  simp only [h0 q hq, List.nil_append]

/-- Witness for C9 at a concrete wide table with one measurement group of
two columns and one constant column. -/
theorem c9_reshape_structure_witness :
    reshape ⟨"t", [0, 60], [("v1", [1, 2]), ("v2", [3, 4])]⟩
        [⟨"volt", ["v1", "v2"], [("v1", "A"), ("v2", "B")]⟩] [("id", "7")]
      = reshape_spec ⟨"t", [0, 60], [("v1", [1, 2]), ("v2", [3, 4])]⟩
        [⟨"volt", ["v1", "v2"], [("v1", "A"), ("v2", "B")]⟩] [("id", "7")] ∧
    ∀ r ∈ (reshape ⟨"t", [0, 60], [("v1", [1, 2]), ("v2", [3, 4])]⟩
        [⟨"volt", ["v1", "v2"], [("v1", "A"), ("v2", "B")]⟩]
        [("id", "7")]).rows,
      r.consts = ["7"] :=
  c9_reshape_structure ⟨"t", [0, 60], [("v1", [1, 2]), ("v2", [3, 4])]⟩
    ⟨"volt", ["v1", "v2"], [("v1", "A"), ("v2", "B")]⟩ [] [("id", "7")]

/-- Filtering the time-sorted rows gives the same result as filtering the
unsorted rows, whenever the rows selected by the filter have pairwise
distinct, increasing time keys (any sort by time then leaves their relative
order unique). -/
lemma filter_sortByTime_rows (p : LongRow → Bool) (rows : List LongRow)
    (h : (rows.filter p).Pairwise (fun x y => x.t < y.t)) :
    ((rows.mergeSort (fun r1 r2 => decide (r1.t ≤ r2.t))).filter p)
      = rows.filter p := by
  have htrans : ∀ a b c : LongRow,
      (fun r1 r2 => decide (r1.t ≤ r2.t)) a b = true →
      (fun r1 r2 => decide (r1.t ≤ r2.t)) b c = true →
      (fun r1 r2 => decide (r1.t ≤ r2.t)) a c = true := by
    intro a b c hab hbc
    simp only [decide_eq_true_eq] at hab hbc ⊢
    exact le_trans hab hbc
  have htotal : ∀ a b : LongRow, ((fun r1 r2 => decide (r1.t ≤ r2.t)) a b ||
      (fun r1 r2 => decide (r1.t ≤ r2.t)) b a) = true := by
    intro a b
    simpa using le_total a.t b.t
  have hperm : (((rows.mergeSort (fun r1 r2 => decide (r1.t ≤ r2.t))).filter p)).Perm
      (rows.filter p) :=
    (List.mergeSort_perm rows _).filter p
  have hsf : ((rows.mergeSort (fun r1 r2 => decide (r1.t ≤ r2.t))).filter p).Pairwise
      (fun x y => x.t ≤ y.t) :=
    ((List.sorted_mergeSort htrans htotal rows).filter p).imp
      (fun hab => by simpa using hab)
  have hnd : ((rows.filter p).map LongRow.t).Nodup :=
    List.pairwise_map.mpr (h.imp fun hab => ne_of_lt hab)
  have hnd2 : (((rows.mergeSort (fun r1 r2 => decide (r1.t ≤ r2.t))).filter p).map
      LongRow.t).Nodup := (hperm.map LongRow.t).nodup_iff.mpr hnd
  have hne := List.pairwise_map.mp hnd2
  have hlt : ((rows.mergeSort (fun r1 r2 => decide (r1.t ≤ r2.t))).filter p).Pairwise
      (fun x y => x.t < y.t) :=
    (hsf.and hne).imp (fun hab => lt_of_le_of_ne hab.1 hab.2)
  haveI : IsAntisymm LongRow (fun x y => x.t < y.t) :=
    ⟨fun a b h1 h2 => absurd h1 (not_lt.mpr h2.le)⟩
  exact List.eq_of_perm_of_sorted hperm hlt h

/-- A pairwise relation on a list transfers to the first components of its
zip with any other list. -/
lemma pairwise_fst_zip {β : Type*} {R : ℚ → ℚ → Prop} (l : List ℚ)
    (l' : List β) (h : l.Pairwise R) :
    (l.zip l').Pairwise (fun a b => R a.1 b.1) := by
  induction l generalizing l' with
  | nil => simp
  | cons x xs ih =>
    cases l' with
    | nil => simp
    | cons y ys =>
      rw [List.zip_cons_cons]
      rcases List.pairwise_cons.mp h with ⟨hx, hxs⟩
      refine List.pairwise_cons.mpr ⟨?_, ih ys hxs⟩
      intro b hb
      exact hx b.1 (List.of_mem_zip hb).1

/-- C7: reshaping a wide table whose measurement columns `cA`, `cB` are
mapped to distinct group identifiers `gA`, `gB` produces a long table in
which the rows with group `gA` carry exactly the values of `wide[cA]` and
those with group `gB` exactly the values of `wide[cB]`, row-aligned with
the time column — no value is lost. -/
theorem c7_reshape_round_trip (df : WideDF) (cA cB gA gB mname : String)
    (vA vB : List ℚ)
    (hA : df.col cA = vA) (hB : df.col cB = vB)
    (hcol : cA ≠ cB) (hg : gA ≠ gB)
    (htime : df.time.Pairwise (· < ·)) :
    (((reshape df [⟨mname, [cA, cB], [(cA, gA), (cB, gB)]⟩] []).rows.filter
        (fun r => r.g == gA)).map (fun r => (r.t, r.vals))
      = (df.time.zip vA).map (fun tv => (tv.1, [some tv.2]))) ∧
    (((reshape df [⟨mname, [cA, cB], [(cA, gA), (cB, gB)]⟩] []).rows.filter
        (fun r => r.g == gB)).map (fun r => (r.t, r.vals))
      = (df.time.zip vB).map (fun tv => (tv.1, [some tv.2]))) := by
  have hlookA : (([(cA, gA), (cB, gB)]).find? (fun q => q.1 == cA))
      = some (cA, gA) := by simp
  have hlookB : (([(cA, gA), (cB, gB)]).find? (fun q => q.1 == cB))
      = some (cB, gB) := by
    rw [List.find?_cons_of_neg, List.find?_cons_of_pos]
    · simp
    · simpa using hcol
  have hrows : (reshape df [⟨mname, [cA, cB], [(cA, gA), (cB, gB)]⟩] []).rows
      = ((df.time.zip vA).map
           (fun tv => (⟨tv.1, gA, [some tv.2], []⟩ : LongRow))
         ++ (df.time.zip vB).map
           (fun tv => (⟨tv.1, gB, [some tv.2], []⟩ : LongRow))).mergeSort
          (fun r1 r2 => decide (r1.t ≤ r2.t)) := by
    simp only [reshape, List.map_cons, List.map_nil, List.foldl_nil,
      sortByTime, meltReplace, replaceGroups, melt, List.flatMap_cons,
      List.flatMap_nil, List.append_nil, List.map_append, List.map_map,
      Function.comp_def, hlookA, hlookB, Option.map_some', Option.getD_some,
      hA, hB]
  have hpairA : ((df.time.zip vA).map
      (fun tv => (⟨tv.1, gA, [some tv.2], []⟩ : LongRow))).Pairwise
      (fun x y => x.t < y.t) :=
    List.pairwise_map.mpr (pairwise_fst_zip df.time vA htime)
  have hpairB : ((df.time.zip vB).map
      (fun tv => (⟨tv.1, gB, [some tv.2], []⟩ : LongRow))).Pairwise
      (fun x y => x.t < y.t) :=
    List.pairwise_map.mpr (pairwise_fst_zip df.time vB htime)
  have hfilA : ((df.time.zip vA).map
        (fun tv => (⟨tv.1, gA, [some tv.2], []⟩ : LongRow))
      ++ (df.time.zip vB).map
        (fun tv => (⟨tv.1, gB, [some tv.2], []⟩ : LongRow))).filter
        (fun r => r.g == gA)
      = (df.time.zip vA).map
          (fun tv => (⟨tv.1, gA, [some tv.2], []⟩ : LongRow)) := by
    rw [List.filter_append]
    have h1 : ((df.time.zip vA).map
        (fun tv => (⟨tv.1, gA, [some tv.2], []⟩ : LongRow))).filter
        (fun r => r.g == gA)
        = (df.time.zip vA).map
            (fun tv => (⟨tv.1, gA, [some tv.2], []⟩ : LongRow)) := by
      refine List.filter_eq_self.mpr ?_
      intro a ha
      obtain ⟨tv, -, rfl⟩ := List.mem_map.mp ha
      simp
    have h2 : ((df.time.zip vB).map
        (fun tv => (⟨tv.1, gB, [some tv.2], []⟩ : LongRow))).filter
        (fun r => r.g == gA) = [] := by
      refine List.filter_eq_nil_iff.mpr ?_
      intro a ha
      obtain ⟨tv, -, rfl⟩ := List.mem_map.mp ha
      simpa using fun habs => hg habs.symm
    rw [h1, h2, List.append_nil]
  have hfilB : ((df.time.zip vA).map
        (fun tv => (⟨tv.1, gA, [some tv.2], []⟩ : LongRow))
      ++ (df.time.zip vB).map
        (fun tv => (⟨tv.1, gB, [some tv.2], []⟩ : LongRow))).filter
        (fun r => r.g == gB)
      = (df.time.zip vB).map
          (fun tv => (⟨tv.1, gB, [some tv.2], []⟩ : LongRow)) := by
    rw [List.filter_append]
    have h1 : ((df.time.zip vA).map
        (fun tv => (⟨tv.1, gA, [some tv.2], []⟩ : LongRow))).filter
        (fun r => r.g == gB) = [] := by
      refine List.filter_eq_nil_iff.mpr ?_
      intro a ha
      obtain ⟨tv, -, rfl⟩ := List.mem_map.mp ha
      simpa using fun habs => hg habs
    have h2 : ((df.time.zip vB).map
        (fun tv => (⟨tv.1, gB, [some tv.2], []⟩ : LongRow))).filter
        (fun r => r.g == gB)
        = (df.time.zip vB).map
            (fun tv => (⟨tv.1, gB, [some tv.2], []⟩ : LongRow)) := by
      refine List.filter_eq_self.mpr ?_
      intro a ha
      obtain ⟨tv, -, rfl⟩ := List.mem_map.mp ha
      simp
    rw [h1, h2, List.nil_append]
  constructor
  · rw [hrows, filter_sortByTime_rows _ _ (by rw [hfilA]; exact hpairA), hfilA,
      List.map_map]
    rfl
  · rw [hrows, filter_sortByTime_rows _ _ (by rw [hfilB]; exact hpairB), hfilB,
      List.map_map]
    rfl

/-- Witness for C7 at a concrete two-column wide table. -/
theorem c7_reshape_round_trip_witness :
    (((reshape ⟨"t", [0, 60], [("v1", [1, 2]), ("v2", [3, 4])]⟩
        [⟨"volt", ["v1", "v2"], [("v1", "A"), ("v2", "B")]⟩] []).rows.filter
        (fun r => r.g == "A")).map (fun r => (r.t, r.vals))
      = (([0, 60] : List ℚ).zip ([1, 2] : List ℚ)).map
          (fun tv => (tv.1, [some tv.2]))) ∧
    (((reshape ⟨"t", [0, 60], [("v1", [1, 2]), ("v2", [3, 4])]⟩
        [⟨"volt", ["v1", "v2"], [("v1", "A"), ("v2", "B")]⟩] []).rows.filter
        (fun r => r.g == "B")).map (fun r => (r.t, r.vals))
      = (([0, 60] : List ℚ).zip ([3, 4] : List ℚ)).map
          (fun tv => (tv.1, [some tv.2]))) :=
  c7_reshape_round_trip ⟨"t", [0, 60], [("v1", [1, 2]), ("v2", [3, 4])]⟩
    "v1" "v2" "A" "B" "volt" [1, 2] [3, 4] (by decide) (by decide)
    (by decide) (by decide) (by decide)

/-- The last element of a mapped range. -/
lemma getLast?_map_range (f : ℕ → ℚ) (n : ℕ) (hn : 1 ≤ n) :
    ((List.range n).map f).getLast? = some (f (n - 1)) := by
  obtain ⟨n', rfl⟩ : ∃ n', n = n' + 1 := ⟨n - 1, by omega⟩
  rw [List.range_succ, List.map_append]
  simp [List.getLast?_concat]

/-- Taking a prefix of a mapped range. -/
lemma take_map_range (f : ℕ → ℚ) (n N : ℕ) (h : n ≤ N) :
    ((List.range N).map f).take n = (List.range n).map f := by
  rw [← List.map_take, List.take_range, inf_eq_left.mpr h]

/-- Splitting a mapped range into a prefix, a shifted middle block and its
last element. -/
lemma map_range_decomp (f : ℕ → ℚ) (n d : ℕ) :
    (List.range (n + (d + 1))).map f
      = (List.range n).map f ++ ((List.range d).map (fun k => f (n + k))
          ++ [f (n + d)]) := by
  rw [List.range_add, List.map_append, List.map_map, List.range_succ,
    List.map_append]
  simp [Function.comp_def]

/-- The invariant of claim C10 for an in-progress series: the recorded
points' timestamps are exactly the first `|points|` grid timestamps in grid
order (a contiguous run from the first grid timestamp, one point per
covered grid timestamp), and `current_x` is the timestamp of the last
recorded point (unset when no point has been recorded). -/
def CaptureInv (a : PlotArtist) : Prop :=
  a.points.map Prod.fst = a.allowed_x.take a.points.length ∧
  a.current_x = (a.points.map Prod.fst).getLast?

/-- C10: every successful selection (a `plot_selection` whose snapped
timestamp was supplied by `get_target_x_coord`) preserves the invariant
that the recorded points cover a contiguous run of grid timestamps from the
first grid timestamp up to `current_x`, one point per covered timestamp —
and the recorded timestamps are strictly increasing and pairwise
distinct. -/
theorem c10_capture_invariant (a : PlotArtist) (x_sel tx y : ℚ)
    (hp : 0 < a.period) (hinv : CaptureInv a)
    (hsnap : a.get_target_x_coord x_sel = some tx) :
    CaptureInv (a.plot_selection tx y) ∧
    ((a.plot_selection tx y).points.map Prod.fst).Pairwise (· < ·) := by
  obtain ⟨hmap, hcur⟩ := hinv
  have hax : (a.plot_selection tx y).allowed_x = a.allowed_x := rfl
  suffices h : CaptureInv (a.plot_selection tx y) ∧
      a.allowed_x.Pairwise (· < ·) by
    refine ⟨h.1, ?_⟩
    have h1 := h.1.1
    rw [h1, hax]
    exact List.Pairwise.sublist (List.take_sublist _ _) h.2
  have hpw_of_cond : a.start ≤ a.«end» - 1 → a.allowed_x.Pairwise (· < ·) := by
    intro hcond
    unfold PlotArtist.allowed_x
    rw [allowedGrid_eq_map_range _ _ _ hp hcond]
    exact pairwise_lt_map_range _ _ hp _
  have hcond_of_ne : a.allowed_x ≠ [] → a.start ≤ a.«end» - 1 := by
    intro hne
    by_contra hco
    refine hne ?_
    unfold PlotArtist.allowed_x allowedGrid dateRange
    rw [if_neg (by tauto)]
  cases hcx : a.current_x with
  | none =>
    have hpts : a.points = [] := by
      rw [hcx] at hcur
      exact List.map_eq_nil_iff.mp (List.getLast?_eq_none_iff.mp hcur.symm)
    simp only [PlotArtist.get_target_x_coord, hcx] at hsnap
    obtain ⟨rest, hal⟩ : ∃ rest, a.allowed_x = tx :: rest := by
      cases hq : a.allowed_x with
      | nil => rw [hq] at hsnap; exact absurd hsnap (by simp)
      | cons h0 r0 =>
        rw [hq] at hsnap
        obtain rfl : h0 = tx := by simpa using hsnap
        exact ⟨r0, rfl⟩
    have hpw := hpw_of_cond (hcond_of_ne (by rw [hal]; simp))
    have hps : (a.plot_selection tx y).points = [(tx, y)] := by
      simp only [PlotArtist.plot_selection, hpts, hcx]
      rfl
    refine ⟨⟨?_, ?_⟩, hpw⟩
    · rw [hps, hax, hal]
      rfl
    · show some tx = ((a.plot_selection tx y).points.map Prod.fst).getLast?
      rw [hps]
      rfl
  | some cx =>
    rw [hcx] at hcur
    have hptsne : a.points ≠ [] := by
      intro h0
      rw [h0] at hcur
      simp at hcur
    have hne : a.allowed_x ≠ [] := by
      intro h0
      have h1 := hmap
      rw [h0] at h1
      simp only [List.take_nil] at h1
      exact hptsne (List.map_eq_nil_iff.mp h1)
    have hcond := hcond_of_ne hne
    have hpw := hpw_of_cond hcond
    set N := ⌊(a.«end» - 1 - a.start) / a.period⌋.toNat + 1 with hN
    set f : ℕ → ℚ := fun k => a.start + (k : ℚ) * a.period with hf
    have hall : a.allowed_x = (List.range N).map f := by
      unfold PlotArtist.allowed_x
      rw [allowedGrid_eq_map_range _ _ _ hp hcond]
    set n := a.points.length with hn
    have hn1 : 1 ≤ n := List.length_pos.mpr hptsne
    have hnN : n ≤ N := by
      have hlen := congrArg List.length hmap
      rw [List.length_map, hall, List.length_take, List.length_map,
        List.length_range] at hlen
      omega
    have htake : a.allowed_x.take n = (List.range n).map f := by
      rw [hall]
      exact take_map_range f n N hnN
    have hcx_eq : cx = f (n - 1) := by
      rw [hmap, htake, getLast?_map_range f n hn1] at hcur
      simpa using hcur
    simp only [PlotArtist.get_target_x_coord, hcx] at hsnap
    have htxmem : tx ∈ a.allowed_x.filter (fun x => decide (cx < x)) :=
      mem_of_head?_mergeSort _ _ _ hsnap
    have htx := List.mem_filter.mp htxmem
    have htxgt : cx < tx := by simpa using htx.2
    have htx1 : tx ∈ (List.range N).map f := by rw [← hall]; exact htx.1
    obtain ⟨m, hmr, hfm⟩ := List.mem_map.mp htx1
    have hmN : m < N := List.mem_range.mp hmr
    have hcast : ((n - 1 : ℕ) : ℚ) = (n : ℚ) - 1 := by
      rw [Nat.cast_sub hn1, Nat.cast_one]
    have hnm : n ≤ m := by
      by_contra hco
      push_neg at hco
      have h1 : (m : ℚ) ≤ ((n - 1 : ℕ) : ℚ) := by
        have : m ≤ n - 1 := by omega
        exact_mod_cast this
      have h2 : f m ≤ f (n - 1) := by
        rw [hf]
        simp only
        nlinarith
      rw [← hfm, hcx_eq] at htxgt
      linarith
    obtain ⟨⟨px, py⟩, hlp⟩ : ∃ lp, a.points.getLast? = some lp := by
      cases hq : a.points.getLast? with
      | none => exact absurd (List.getLast?_eq_none_iff.mp hq) hptsne
      | some lp => exact ⟨lp, rfl⟩
    have hfn : cx + a.period = f n := by
      rw [hcx_eq, hf]
      simp only
      rw [hcast]
      ring
    rcases eq_or_lt_of_le hnm with heq | hlt
    · -- the snapped point is the very next grid timestamp: no interpolation
      subst heq
      have htxeq : tx = cx + a.period := by rw [hfn]; exact hfm.symm
      have hng : ¬ (tx > cx + a.period) := by rw [htxeq]; exact lt_irrefl _
      have hps2 : (a.plot_selection tx y).points = a.points ++ [(tx, y)] := by
        simp only [PlotArtist.plot_selection, hlp, hcx, if_neg hng,
          List.append_nil]
      refine ⟨⟨?_, ?_⟩, hpw⟩
      · rw [hax, hps2, List.map_append, hmap, htake]
        simp only [List.length_append, List.length_cons, List.length_nil,
          List.map_cons, List.map_nil, ← hn]
        rw [hall, take_map_range f (n + 1) N (by omega), List.range_succ,
          List.map_append]
        simp only [List.map_cons, List.map_nil]
        rw [htxeq, hfn]
      · show some tx = ((a.plot_selection tx y).points.map Prod.fst).getLast?
        rw [hps2, List.map_append]
        simp [List.getLast?_concat]
    · -- one or more grid timestamps were skipped: interpolation fills them
      have hD : tx = cx + ((m - n + 1 : ℕ) : ℚ) * a.period := by
        rw [← hfm, hcx_eq, hf]
        simp only
        push_cast [Nat.cast_sub hnm, Nat.cast_sub hn1]
        ring
      have hgt : tx > cx + a.period := by
        rw [hfn, ← hfm, hf]
        simp only
        have : (n : ℚ) < (m : ℚ) := by exact_mod_cast hlt
        nlinarith
      have hmid : ((List.range (m - n)).map
          (fun k : ℕ => cx + ((k : ℚ) + 1) * a.period))
          = (List.range (m - n)).map (fun k => f (n + k)) := by
        refine List.map_congr_left ?_
        intro k _
        rw [hcx_eq, hf]
        simp only
        push_cast
        rw [hcast]
        ring
      have hdrl : dateRangeLeft (cx + a.period) tx a.period
          = (List.range (m - n)).map (fun k => f (n + k)) := by
        rw [hD, dateRangeLeft_arith cx a.period hp (m - n + 1)]
        rw [← hmid]
        simp
      have hinterp : (a.plot_selection tx y).points
          = a.points ++ ((List.range (m - n)).map (fun k => f (n + k))).map
              (fun xi => (xi, py - (y - py) / ((tx - px) / 60)
                * ((px - xi) / 60))) ++ [(tx, y)] := by
        simp only [PlotArtist.plot_selection, hlp, hcx, if_pos hgt, hdrl]
      have hlen' : (a.plot_selection tx y).points.length = n + ((m - n) + 1) := by
        rw [hinterp]
        simp only [List.length_append, List.length_map, List.length_range,
          List.length_cons, List.length_nil, ← hn]
        omega
      refine ⟨⟨?_, ?_⟩, hpw⟩
      · rw [hax, hlen', hinterp, List.map_append, List.map_append,
          List.map_map, hmap, htake]
        rw [hall, take_map_range f (n + ((m - n) + 1)) N (by omega),
          map_range_decomp f n (m - n)]
        simp only [List.map_cons, List.map_nil, Function.comp_def,
          List.map_id']
        rw [List.append_assoc]
        have hfend : f (n + (m - n)) = tx := by
          rw [← hfm]
          congr 1
          omega
        rw [hfend]
      · show some tx = ((a.plot_selection tx y).points.map Prod.fst).getLast?
        rw [hinterp, List.map_append]
        simp [List.getLast?_concat]

/-- Witness for C10 at a concrete artist holding one recorded point on the
grid 0, 300, …, 1200 s, with a click that snaps to 300 s. -/
theorem c10_capture_invariant_witness :
    CaptureInv (PlotArtist.plot_selection
      { start := 0, «end» := 1500, period := 300, df := [],
        points := [(0, 2)], current_x := some 0 } 300 7) ∧
    ((PlotArtist.plot_selection
      { start := 0, «end» := 1500, period := 300, df := [],
        points := [(0, 2)], current_x := some 0 } 300 7).points.map
          Prod.fst).Pairwise (· < ·) := by
  have hfl : (⌊((1500 : ℚ) - 1 - 0) / 300⌋) = 4 := by
    norm_num [Int.floor_eq_iff]
  have ht : Int.toNat 4 = 4 := rfl
  have hgrid : PlotArtist.allowed_x
      { start := 0, «end» := 1500, period := 300, df := [],
        points := [(0, 2)], current_x := some 0 }
      = [0, 300, 600, 900, 1200] := by
    simp only [PlotArtist.allowed_x, allowedGrid, dateRange, hfl, ht]
    norm_num [List.range_succ]
  refine c10_capture_invariant _ 0 300 7 (show (0 : ℚ) < 300 by norm_num)
    ⟨?_, rfl⟩ ?_
  · rw [hgrid]
    rfl
  · simp only [PlotArtist.get_target_x_coord, PlotArtist.click_to_timestamp,
      hgrid]
    norm_num [List.mergeSort, abs_of_nonneg]

end MockDataGenerator
